import Mathlib

/-!
Shallow embedding of the wizard controller of the arcube upsell front-end
(`src/unnamed/part_000`, the seven-step variant with the optional transfer
branch; `src/src/pages/Index.tsx` is a near-duplicate whose shared functions
`handleUpgradeToggle`, `calculateTotal` and `placeOrder` are textually
identical).  React state hooks become an explicit `State` record, event
handlers become functions `State → State × List Effect`, and the buttons the
component renders become an `Event` type with an availability predicate read
off the JSX conditions.  Boundary calls (fetch) are split into an issuing
half and a resolution half; the resolution carries the outcome as data.
-/

namespace Arcube

/-- Embeds the `Ancillary` interface (the fields the wizard logic reads:
`_id`, `id`, `name`, `price`, `category`; prices are exact decimals). -/
structure Ancillary where
  _id : String
  id : String
  name : String
  price : ℚ
  category : String
deriving Repr, DecidableEq

/-- Embeds `RecommendationResponse` (the fields the wizard logic reads). -/
structure RecommendationResponse where
  _id : String
  ancillaries : List Ancillary
deriving Repr, DecidableEq

/-- Embeds the `formData` record of `useState`.  `needsTransport` is
`boolean | null` in the source, hence `Option Bool`. -/
structure FormData where
  email : String
  flightNumber : String
  needsTransport : Option Bool
  pickupAddress : String
  dropoffAddress : String
  passengers : String
  pickupDate : String
  pickupTime : String
  carType : String
  selectedUpgrades : List String
deriving Repr, DecidableEq

/-- The initial `formData` value passed to `useState` (also the value the
Start-New-Booking reset restores). -/
def initialFormData : FormData :=
  { email := ""
    flightNumber := ""
    needsTransport := none
    pickupAddress := ""
    dropoffAddress := ""
    passengers := ""
    pickupDate := ""
    pickupTime := ""
    carType := ""
    selectedUpgrades := [] }

/-- Modelled from the spec: the email check is `z.string().email(...)` from
the external zod library, whose code is not part of this repository.  The
spec asks for "a standard email-address grammar" with the testable property
that strings lacking an `@` fail: one `@`, a non-empty local part, and a
domain with an interior dot. -/
def emailIsValid (s : String) : Bool :=
  match s.data.splitOn '@' with
  | [lp, dom] =>
      !lp.isEmpty && !dom.isEmpty && dom.contains '.' &&
        dom.head? != some '.' && dom.getLast? != some '.'
  | _ => false

/-- Embeds `carTransferSchema.parse` on step 4: zod checks every field of the
object and reports one issue per failing field, keyed by the field's path.
`min 5` is length ≥ 5, `min 1` is non-emptiness. -/
def carTransferErrors (fd : FormData) : List (String × String) :=
  (if fd.pickupAddress.length < 5 then
    [("pickupAddress", "Please enter a pickup address")] else []) ++
  (if fd.dropoffAddress.length < 5 then
    [("dropoffAddress", "Please enter a drop-off address")] else []) ++
  (if fd.passengers.length < 1 then
    [("passengers", "Please select number of passengers")] else []) ++
  (if fd.pickupDate.length < 1 then
    [("pickupDate", "Please select a pickup date")] else []) ++
  (if fd.pickupTime.length < 1 then
    [("pickupTime", "Please select a pickup time")] else []) ++
  (if fd.carType.length < 1 then
    [("carType", "Please select a car type")] else [])

/-- Embeds `validateStep`: the returned mapping is the `errors` record the
handler stores (empty on success, in which case the source's `setErrors({})`
has already cleared it).  Step 4 only runs the transfer schema when
`formData.needsTransport` is truthy, i.e. `some true`. -/
def validateStep (step : Nat) (fd : FormData) : List (String × String) :=
  match step with
  | 1 => if emailIsValid fd.email then [] else
      [("email", "Please enter a valid email address")]
  | 2 => if fd.flightNumber.length ≥ 3 then [] else
      [("flightNumber", "Flight number must be at least 3 characters")]
  | 3 =>
      match fd.needsTransport with
      | none => [("needsTransport", "Please select an option")]
      | some _ => []
  | 4 =>
      match fd.needsTransport with
      | some true => carTransferErrors fd
      | _ => []
  | _ => []

/-- Embeds JavaScript `String.prototype.toUpperCase()` as applied by the
flight-number input's onChange: uppercase every character. -/
def toUpperCase (s : String) : String :=
  String.mk (s.data.map Char.toUpper)

/-- The two boundary endpoints the component can have outstanding. -/
inductive Call where
  | recommend
  | order
deriving Repr, DecidableEq

/-- Observable effects of a handler: the POST bodies of the two boundary
calls, and toast notifications (identified by title). -/
inductive Effect where
  | recommendRequest (email : String) (flight_number : String)
  | orderRequest (recommendation : String) (ancillaries : List String)
      (email : String)
  | toast (title : String)
deriving Repr, DecidableEq

/-- The component's `useState` hooks, plus `pending`, which records which
boundary call (if any) is outstanding — the promise the `await fetch` of
`fetchRecommendation` / `placeOrder` is suspended on. -/
structure State where
  currentStep : Nat
  isLoading : Bool
  recommendation : Option RecommendationResponse
  currentSection : Option String
  formData : FormData
  errors : List (String × String)
  pending : Option Call
deriving Repr, DecidableEq

/-- The initial state of the component. -/
def initialState : State :=
  { currentStep := 1
    isLoading := false
    recommendation := none
    currentSection := none
    formData := initialFormData
    errors := []
    pending := none }

/-- The issuing half of `fetchRecommendation`: `setIsLoading(true)` and the
POST to `/aggregation-api/recommend` with body
`{ email, flight_number: formData.flightNumber }`. -/
def fetchRecommendationStart (s : State) : State × List Effect :=
  ({ s with isLoading := true, pending := some Call.recommend },
   [Effect.recommendRequest s.formData.email s.formData.flightNumber])

/-- The resolution half of `fetchRecommendation`: on a parsed 2xx payload it
stores the recommendation, moves to step 5 and toasts; on any failure
(non-ok response or thrown error) the catch block only toasts.  Either way
the `finally` block clears `isLoading`. -/
def fetchRecommendationResolve (s : State) (r : Option RecommendationResponse) :
    State × List Effect :=
  match r with
  | some data =>
      ({ s with
          recommendation := some data
          currentStep := 5
          isLoading := false
          pending := none },
       [Effect.toast "Recommendations Loaded"])
  | none =>
      ({ s with isLoading := false, pending := none },
       [Effect.toast "Error"])

/-- Embeds `handleNext`: validate the current step; on failure store the
errors and stop; on success branch exactly as the source does. -/
def handleNext (s : State) : State × List Effect :=
  let errs := validateStep s.currentStep s.formData
  if errs.isEmpty then
    let s0 := { s with errors := [] }
    if s.currentStep = 2 then
      ({ s0 with currentStep := 3 }, [])
    else if s.currentStep = 3 then
      match s.formData.needsTransport with
      | some true => ({ s0 with currentStep := 4 }, [])
      | _ => fetchRecommendationStart s0
    else if s.currentStep = 4 then
      fetchRecommendationStart s0
    else
      ({ s0 with currentStep := s.currentStep + 1 }, [])
  else
    ({ s with errors := errs }, [])

/-- Embeds `handleUpgradeToggle` on the `selectedUpgrades` list: filter out
every occurrence when present, append when absent. -/
def handleUpgradeToggle (sel : List String) (upgradeId : String) :
    List String :=
  if sel.contains upgradeId then
    sel.filter (fun id => id != upgradeId)
  else
    sel ++ [upgradeId]

/-- Embeds `placeOrder`: the `!recommendation || selectedUpgrades.length
=== 0` guard toasts "No Selection" and returns without calling out;
otherwise it sets loading and POSTs to `/aggregation-api/orders`. -/
def placeOrder (s : State) : State × List Effect :=
  match s.recommendation with
  | none => (s, [Effect.toast "No Selection"])
  | some r =>
      if s.formData.selectedUpgrades.isEmpty then
        (s, [Effect.toast "No Selection"])
      else
        ({ s with isLoading := true, pending := some Call.order },
         [Effect.orderRequest r._id s.formData.selectedUpgrades
            s.formData.email])

/-- The resolution half of `placeOrder`: a 2xx payload with `success: true`
moves to step 7; a non-ok response, thrown error, or falsy `success` flag
lands in the catch block which only toasts.  The `finally` clears
`isLoading`. -/
def placeOrderResolve (s : State) (success : Bool) : State × List Effect :=
  if success then
    ({ s with
        currentStep := 7
        isLoading := false
        pending := none },
     [Effect.toast "Order Confirmed!"])
  else
    ({ s with isLoading := false, pending := none },
     [Effect.toast "Error"])

/-- Embeds `calculateTotal`: reduce over `selectedUpgrades`, looking each id
up by `_id` in the catalog, an absent id (or absent catalog) contributing
zero. -/
def calculateTotal (recommendation : Option RecommendationResponse)
    (selectedUpgrades : List String) : ℚ :=
  match recommendation with
  | none => 0
  | some r =>
      selectedUpgrades.foldl
        (fun total upgradeId =>
          total +
            (match r.ancillaries.find? (fun a => a._id == upgradeId) with
             | some a => a.price
             | none => 0))
        0

/-- The interactions the rendered component exposes, plus the two promise
resolutions.  Setter events carry the raw input value; `toggle` is a card
click or a Review-step Remove link; `next` is any Continue /
Find-My-Upgrades button wired to `handleNext`. -/
inductive Event where
  | setEmail (v : String)
  | setFlightNumber (v : String)
  | setNeedsTransport (b : Bool)
  | setPickupAddress (v : String)
  | setDropoffAddress (v : String)
  | setPassengers (v : String)
  | setPickupDate (v : String)
  | setPickupTime (v : String)
  | setCarType (v : String)
  | next
  | changeEmail
  | backToChoice
  | pickCategory (c : String)
  | backToCategories
  | reviewOrder
  | backToUpgrades
  | toggle (id : String)
  | order
  | startOver
  | fetchResolved (r : Option RecommendationResponse)
  | orderResolved (ok : Bool)
deriving Repr, DecidableEq

/-- True for the events a user click or keystroke produces (everything but
the two promise resolutions). -/
def Event.isUser : Event → Bool
  | .fetchResolved _ => false
  | .orderResolved _ => false
  | _ => true

/-- Which events the component can receive in a given state, read off the
JSX: while `isLoading` the whole step area renders only the spinner, so no
user control exists; each step's panel renders only under its guard
(`currentStep === n`, the step-4 panel additionally `formData.needsTransport`,
the catalog panels additionally `recommendation`), and a `disabled` button
fires no click.  A resolution event is receivable exactly while the matching
call is outstanding. -/
def available (s : State) : Event → Bool
  | .setEmail _ => !s.isLoading && s.currentStep == 1
  | .setFlightNumber _ => !s.isLoading && s.currentStep == 2
  | .setNeedsTransport _ => !s.isLoading && s.currentStep == 3
  | .setPickupAddress _ => !s.isLoading && s.currentStep == 4 &&
      s.formData.needsTransport == some true
  | .setDropoffAddress _ => !s.isLoading && s.currentStep == 4 &&
      s.formData.needsTransport == some true
  | .setPassengers _ => !s.isLoading && s.currentStep == 4 &&
      s.formData.needsTransport == some true
  | .setPickupDate _ => !s.isLoading && s.currentStep == 4 &&
      s.formData.needsTransport == some true
  | .setPickupTime _ => !s.isLoading && s.currentStep == 4 &&
      s.formData.needsTransport == some true
  | .setCarType _ => !s.isLoading && s.currentStep == 4 &&
      s.formData.needsTransport == some true
  | .next => !s.isLoading &&
      (s.currentStep == 1 || s.currentStep == 2 ||
       (s.currentStep == 3 && s.formData.needsTransport != none) ||
       (s.currentStep == 4 && s.formData.needsTransport == some true))
  | .changeEmail => !s.isLoading && s.currentStep == 2
  | .backToChoice => !s.isLoading && s.currentStep == 4 &&
      s.formData.needsTransport == some true
  | .pickCategory _ => !s.isLoading && s.currentStep == 5 &&
      s.currentSection == none && s.recommendation.isSome
  | .backToCategories => !s.isLoading && s.currentStep == 5 &&
      s.currentSection != none && s.recommendation.isSome
  | .reviewOrder => !s.isLoading && s.currentStep == 5 &&
      s.recommendation.isSome && !s.formData.selectedUpgrades.isEmpty
  | .backToUpgrades => !s.isLoading && s.currentStep == 6 &&
      s.recommendation.isSome
  | .toggle _ => !s.isLoading && s.recommendation.isSome &&
      ((s.currentStep == 5 && s.currentSection != none) ||
       s.currentStep == 6)
  | .order => !s.isLoading && s.currentStep == 6 && s.recommendation.isSome
  | .startOver => !s.isLoading && s.currentStep == 7
  | .fetchResolved _ => s.pending == some Call.recommend
  | .orderResolved _ => s.pending == some Call.order

/-- One step of the component: the handler each event is wired to.  The
flight-number input stores `e.target.value.toUpperCase()`; all other setters
store the raw value.  The Start-New-Booking button resets every hook to its
initial value. -/
def applyEvent (s : State) : Event → State × List Effect
  | .setEmail v =>
      ({ s with formData := { s.formData with email := v } }, [])
  | .setFlightNumber v =>
      ({ s with
          formData := { s.formData with flightNumber := toUpperCase v } },
       [])
  | .setNeedsTransport b =>
      ({ s with formData := { s.formData with needsTransport := some b } },
       [])
  | .setPickupAddress v =>
      ({ s with formData := { s.formData with pickupAddress := v } }, [])
  | .setDropoffAddress v =>
      ({ s with formData := { s.formData with dropoffAddress := v } }, [])
  | .setPassengers v =>
      ({ s with formData := { s.formData with passengers := v } }, [])
  | .setPickupDate v =>
      ({ s with formData := { s.formData with pickupDate := v } }, [])
  | .setPickupTime v =>
      ({ s with formData := { s.formData with pickupTime := v } }, [])
  | .setCarType v =>
      ({ s with formData := { s.formData with carType := v } }, [])
  | .next => handleNext s
  | .changeEmail => ({ s with currentStep := 1 }, [])
  | .backToChoice => ({ s with currentStep := 3 }, [])
  | .pickCategory c => ({ s with currentSection := some c }, [])
  | .backToCategories => ({ s with currentSection := none }, [])
  | .reviewOrder => ({ s with currentStep := 6 }, [])
  | .backToUpgrades => ({ s with currentStep := 5 }, [])
  | .toggle id =>
      ({ s with
          formData := { s.formData with
            selectedUpgrades :=
              handleUpgradeToggle s.formData.selectedUpgrades id } },
       [])
  | .order => placeOrder s
  | .startOver =>
      ({ s with
          currentStep := 1
          currentSection := none
          recommendation := none
          formData := initialFormData },
       [])
  | .fetchResolved r => fetchRecommendationResolve s r
  | .orderResolved ok => placeOrderResolve s ok

/-- The states the component can be in: initial, or one available event
applied to a reachable state. -/
inductive Reachable : State → Prop where
  | init : Reachable initialState
  | step (s : State) (e : Event) (h : Reachable s)
      (ha : available s e = true) : Reachable (applyEvent s e).1

/-- The price the reduce body of `calculateTotal` adds for one selected id:
the price of the first catalog item with that `_id`, zero when absent. -/
def lookupPrice (l : List Ancillary) (upgradeId : String) : ℚ :=
  match l.find? (fun a => a._id == upgradeId) with
  | some a => a.price
  | none => 0

/-- The two-item catalog of the spec's worked example: prices 20.70 and
6.60. -/
def exampleCatalog : RecommendationResponse :=
  { _id := "r1"
    ancillaries :=
      [{ _id := "A", id := "A", name := "Car Airport Transfer",
         price := 20.7, category := "transportation" },
       { _id := "B", id := "B", name := "Baggage Protection",
         price := 6.6, category := "insurance" }] }

/-- The session-state invariant every reachable state satisfies:
`isLoading` tracks whether a boundary call is outstanding, an outstanding
recommendation call was issued from step 3 or 4 and an outstanding order
call from step 6, the selection never holds a duplicate id, and the stored
flight number is an uppercase image. -/
def Inv (s : State) : Prop :=
  s.isLoading = s.pending.isSome ∧
  (s.pending = some Call.recommend →
    s.currentStep = 3 ∨ s.currentStep = 4) ∧
  (s.pending = some Call.order → s.currentStep = 6) ∧
  s.formData.selectedUpgrades.Nodup ∧
  (∃ raw, s.formData.flightNumber = toUpperCase raw)

/-! ### The step-transition edge sets -/

/-- The step-transition edges enumerated in spec §4.2, on the source's
numeric step identifiers (Email = 1, Flight = 2, TransferChoice = 3,
TransferDetails = 4, CatalogBrowse = 5 — the CategoryDetail drill-down
shares step 5 and only switches `currentSection` — Review = 6,
Confirmed = 7). -/
def specEdges : List (Nat × Nat) :=
  [(1, 2), (2, 3), (3, 4), (3, 5), (4, 5), (5, 6), (6, 7), (6, 5), (7, 1)]

/-- The set `specEdges` plus the two back edges the code implements that
spec §4.2 does not list: Flight→Email (the Change-email link on step 2)
and TransferDetails→TransferChoice (the Back button on step 4). -/
def extendedEdges : List (Nat × Nat) :=
  specEdges ++ [(2, 1), (4, 3)]

/-- A concrete reachable state on the Flight step: a valid email was typed
and Continue clicked. -/
def demoFlightState : State :=
  (applyEvent (applyEvent initialState (Event.setEmail "a@b.com")).1
    Event.next).1


/-- True for the effects that are boundary calls (POST bodies), false for
toasts. -/
def Effect.isBoundaryRequest : Effect → Bool
  | .recommendRequest _ _ => true
  | .orderRequest _ _ _ => true
  | .toast _ => false

/-! ### Theorems -/

/-- C1: for every step and session state, invoking `handleNext` when the
step's validation fails leaves `currentStep` unchanged, stores at least one
entry in the errors mapping, and issues no boundary call (no effect at
all). -/
theorem handleNext_invalid_is_noop (s : State)
    (h : validateStep s.currentStep s.formData ≠ []) :
    (handleNext s).1.currentStep = s.currentStep ∧
    (handleNext s).1.errors ≠ [] ∧
    (handleNext s).2 = [] := by
  have he : (validateStep s.currentStep s.formData).isEmpty = false := by
    cases hv : validateStep s.currentStep s.formData with
    | nil => exact absurd hv h
    | cons a l => rfl
  simp [handleNext, he, h]

/-- Witness for C1: advancing from the initial state (step 1, empty email)
fails validation and is a no-op. -/
theorem handleNext_invalid_is_noop_witness :
    validateStep initialState.currentStep initialState.formData ≠ [] ∧
    ((handleNext initialState).1.currentStep = initialState.currentStep ∧
     (handleNext initialState).1.errors ≠ [] ∧
     (handleNext initialState).2 = []) :=
  ⟨by decide, handleNext_invalid_is_noop initialState (by decide)⟩

/-- C2: with `needsTransport = some false`, advancing from step 3 passes
validation regardless of the transfer-detail fields (neither the step-3 nor
the step-4 gate can reject), issues exactly the recommendation request,
stays on step 3 while the call is outstanding (never entering step 4), and
a successful resolution lands on step 5. -/
theorem transferChoice_no_skips_details (s : State)
    (h3 : s.currentStep = 3)
    (hn : s.formData.needsTransport = some false) :
    validateStep 3 s.formData = [] ∧
    validateStep 4 s.formData = [] ∧
    (handleNext s).2 =
      [Effect.recommendRequest s.formData.email s.formData.flightNumber] ∧
    (handleNext s).1.currentStep = 3 ∧
    (handleNext s).1.isLoading = true ∧
    (handleNext s).1.pending = some Call.recommend ∧
    ∀ data,
      (fetchRecommendationResolve (handleNext s).1 (some data)).1.currentStep
        = 5 := by
  refine ⟨by simp [validateStep, hn], by simp [validateStep, hn], ?_⟩
  simp [handleNext, h3, validateStep, hn, fetchRecommendationStart,
    fetchRecommendationResolve]

/-- Witness for C2 at a concrete step-3 state with the "no" choice. -/
theorem transferChoice_no_skips_details_witness :
    ({ initialState with
        currentStep := 3
        formData := { initialFormData with
          needsTransport := some false } } : State).currentStep = 3 ∧
    (validateStep 3
        ({ initialFormData with needsTransport := some false }) = [] ∧
     validateStep 4
        ({ initialFormData with needsTransport := some false }) = [] ∧
     (handleNext { initialState with
        currentStep := 3
        formData :=
          { initialFormData with needsTransport := some false } }).2 =
      [Effect.recommendRequest "" ""] ∧
     (handleNext { initialState with
        currentStep := 3
        formData :=
          { initialFormData with needsTransport := some false } }).1.currentStep
        = 3 ∧
     (handleNext { initialState with
        currentStep := 3
        formData :=
          { initialFormData with needsTransport := some false } }).1.isLoading
        = true ∧
     (handleNext { initialState with
        currentStep := 3
        formData :=
          { initialFormData with needsTransport := some false } }).1.pending
        = some Call.recommend ∧
     ∀ data,
       (fetchRecommendationResolve
          (handleNext { initialState with
            currentStep := 3
            formData :=
              { initialFormData with needsTransport := some false } }).1
          (some data)).1.currentStep = 5) :=
  ⟨rfl,
   transferChoice_no_skips_details
     { initialState with
        currentStep := 3
        formData := { initialFormData with needsTransport := some false } }
     rfl rfl⟩

/-- C5: `placeOrder` with no loaded recommendation or an empty selection is
rejected locally: the state (in particular `currentStep`) is unchanged, the
only effect is the "No Selection" toast, and no order request is issued. -/
theorem placeOrder_empty_selection_rejected (s : State)
    (h : s.recommendation = none ∨ s.formData.selectedUpgrades = []) :
    (placeOrder s).1 = s ∧
    (placeOrder s).1.currentStep = s.currentStep ∧
    (placeOrder s).2 = [Effect.toast "No Selection"] ∧
    ∀ rid ids em, Effect.orderRequest rid ids em ∉ (placeOrder s).2 := by
  have key : (placeOrder s).1 = s ∧
      (placeOrder s).2 = [Effect.toast "No Selection"] := by
    rcases h with h | h
    · simp [placeOrder, h]
    · cases hr : s.recommendation with
      | none => simp [placeOrder, hr]
      | some r => simp [placeOrder, hr, h]
  refine ⟨key.1, by rw [key.1], key.2, ?_⟩
  intro rid ids em
  rw [key.2]
  simp

/-- Witness for C5: placing an order at the Review step with nothing
selected (and no catalog) is rejected locally. -/
theorem placeOrder_empty_selection_rejected_witness :
    (({ initialState with currentStep := 6 } : State).recommendation = none ∨
     ({ initialState with currentStep := 6 } : State).formData.selectedUpgrades
        = []) ∧
    ((placeOrder { initialState with currentStep := 6 }).1 =
        { initialState with currentStep := 6 } ∧
     (placeOrder { initialState with currentStep := 6 }).1.currentStep =
        ({ initialState with currentStep := 6 } : State).currentStep ∧
     (placeOrder { initialState with currentStep := 6 }).2 =
        [Effect.toast "No Selection"] ∧
     ∀ rid ids em, Effect.orderRequest rid ids em ∉
        (placeOrder { initialState with currentStep := 6 }).2) :=
  ⟨Or.inl rfl,
   placeOrder_empty_selection_rejected
     { initialState with currentStep := 6 } (Or.inl rfl)⟩

/-- C6: a failed recommendation fetch (non-2xx or thrown error) restores
exactly the pre-fetch state with `isLoading` cleared: the recommendation is
unchanged (so still unset if it was), `isLoading = false`, and `currentStep`
is the step that triggered the fetch; nothing else is touched. -/
theorem fetchRecommendation_failure_preserves_state (s : State) :
    (fetchRecommendationResolve (fetchRecommendationStart s).1 none).1 =
      { s with isLoading := false, pending := none } ∧
    (fetchRecommendationResolve (fetchRecommendationStart s).1 none).1.recommendation
      = s.recommendation ∧
    (fetchRecommendationResolve (fetchRecommendationStart s).1 none).1.isLoading
      = false ∧
    (fetchRecommendationResolve (fetchRecommendationStart s).1 none).1.currentStep
      = s.currentStep := by
  simp [fetchRecommendationStart, fetchRecommendationResolve]

/-! ### Totals: `calculateTotal` as a sum over the catalog -/

theorem foldl_add_lookup (f : String → ℚ) (sel : List String) :
    ∀ init : ℚ,
      sel.foldl (fun total upgradeId => total + f upgradeId) init =
        init + (sel.map f).sum := by
  induction sel with
  | nil => intro init; simp
  | cons id rest ih =>
      intro init
      simp [List.foldl_cons, ih, add_assoc]

theorem calculateTotal_eq_sum_map (r : RecommendationResponse)
    (sel : List String) :
    calculateTotal (some r) sel =
      (sel.map (lookupPrice r.ancillaries)).sum := by
  show sel.foldl
      (fun total upgradeId => total + lookupPrice r.ancillaries upgradeId) 0 =
    (sel.map (lookupPrice r.ancillaries)).sum
  rw [foldl_add_lookup]
  simp

theorem sum_filter_id_eq_lookup (l : List Ancillary) (id : String)
    (h : (l.map Ancillary._id).Nodup) :
    ((l.filter (fun a => a._id == id)).map Ancillary.price).sum =
      lookupPrice l id := by
  induction l with
  | nil => simp [lookupPrice]
  | cons a l' ih =>
      have hnotin : a._id ∉ l'.map Ancillary._id := (List.nodup_cons.mp h).1
      have h' : (l'.map Ancillary._id).Nodup := (List.nodup_cons.mp h).2
      cases hb : (a._id == id) with
      | true =>
          have hid : a._id = id := by simpa using hb
          have hnil : l'.filter (fun b => b._id == id) = [] := by
            refine List.filter_eq_nil_iff.mpr ?_
            intro b hbmem hbeq
            have : b._id = id := by simpa using hbeq
            exact hnotin (hid ▸ this ▸ List.mem_map_of_mem Ancillary._id hbmem)
          simp [List.filter_cons, hb, hnil, lookupPrice, List.find?]
      | false =>
          simp [List.filter_cons, hb, lookupPrice, List.find?] at ih ⊢
          exact ih h'

theorem sum_filter_or_disjoint (l : List Ancillary) (p q : Ancillary → Bool)
    (h : ∀ a ∈ l, ¬(p a = true ∧ q a = true)) :
    ((l.filter (fun a => p a || q a)).map Ancillary.price).sum =
      ((l.filter p).map Ancillary.price).sum +
        ((l.filter q).map Ancillary.price).sum := by
  induction l with
  | nil => simp
  | cons a l' ih =>
      have ih' := ih (fun b hb => h b (List.mem_cons_of_mem a hb))
      have ha := h a (List.mem_cons_self a l')
      cases hp : p a with
      | true =>
          have hq : q a = false := by
            cases hq : q a with
            | true => exact absurd ⟨hp, hq⟩ ha
            | false => rfl
          simp [List.filter_cons, hp, hq, ih', add_assoc]
      | false =>
          cases hq : q a with
          | true =>
              simp [List.filter_cons, hp, hq, ih']
              ring
          | false => simp [List.filter_cons, hp, hq, ih']

theorem sum_lookup_eq_sum_filter (l : List Ancillary) (sel : List String)
    (h1 : (l.map Ancillary._id).Nodup) (h2 : sel.Nodup) :
    (sel.map (lookupPrice l)).sum =
      ((l.filter (fun a => sel.contains a._id)).map Ancillary.price).sum := by
  induction sel with
  | nil => simp
  | cons id rest ih =>
      have hnotin : id ∉ rest := (List.nodup_cons.mp h2).1
      have h2' : rest.Nodup := (List.nodup_cons.mp h2).2
      have hsplit :
          ((l.filter
              (fun a => (a._id == id) || rest.contains a._id)).map
            Ancillary.price).sum =
          ((l.filter (fun a => a._id == id)).map Ancillary.price).sum +
            ((l.filter (fun a => rest.contains a._id)).map
              Ancillary.price).sum := by
        refine sum_filter_or_disjoint l _ _ ?_
        rintro a _ ⟨hpa, hqa⟩
        have hid : a._id = id := by simpa using hpa
        have hmem : a._id ∈ rest := by simpa using hqa
        exact hnotin (hid ▸ hmem)
      have hcont :
          (l.filter (fun a => (id :: rest).contains a._id)) =
            (l.filter (fun a => (a._id == id) || rest.contains a._id)) := by
        apply List.filter_congr
        intro a _
        simp only [List.contains_cons]
      rw [List.map_cons, List.sum_cons, hcont, hsplit,
        sum_filter_id_eq_lookup l id h1, ih h2']

/-- C3: `calculateTotal` equals the exact sum of the prices of the catalog
items whose `_id` is selected (ids without a catalog match contribute
nothing, the filter ranging over catalog items only), and on the spec's
example catalog with both items selected the total is exactly 27.30. -/
theorem calculateTotal_is_sum_of_selected (r : RecommendationResponse)
    (sel : List String)
    (h1 : (r.ancillaries.map Ancillary._id).Nodup) (h2 : sel.Nodup) :
    calculateTotal (some r) sel =
      ((r.ancillaries.filter (fun a => sel.contains a._id)).map
        Ancillary.price).sum ∧
    calculateTotal (some exampleCatalog) ["A", "B"] = 27.3 := by
  constructor
  · rw [calculateTotal_eq_sum_map]
    exact sum_lookup_eq_sum_filter r.ancillaries sel h1 h2
  · simp [calculateTotal, exampleCatalog, List.find?]
    norm_num

/-- Witness for C3 on the example catalog with both items selected. -/
theorem calculateTotal_is_sum_of_selected_witness :
    (exampleCatalog.ancillaries.map Ancillary._id).Nodup ∧
    (["A", "B"] : List String).Nodup ∧
    (calculateTotal (some exampleCatalog) ["A", "B"] =
      ((exampleCatalog.ancillaries.filter
          (fun a => (["A", "B"] : List String).contains a._id)).map
        Ancillary.price).sum ∧
     calculateTotal (some exampleCatalog) ["A", "B"] = 27.3) :=
  ⟨by decide, by decide,
   calculateTotal_is_sum_of_selected exampleCatalog ["A", "B"]
     (by decide) (by decide)⟩

/-! ### Toggling -/

theorem toggle_of_mem (sel : List String) (id : String) (h : id ∈ sel) :
    handleUpgradeToggle sel id = sel.filter (fun x => x != id) := by
  simp [handleUpgradeToggle, h]

theorem toggle_of_not_mem (sel : List String) (id : String) (h : id ∉ sel) :
    handleUpgradeToggle sel id = sel ++ [id] := by
  simp [handleUpgradeToggle, h]

theorem toggle_twice_eq (sel : List String) (id : String) :
    handleUpgradeToggle (handleUpgradeToggle sel id) id =
      if id ∈ sel then sel.filter (fun x => x != id) ++ [id] else sel := by
  by_cases h : id ∈ sel
  · rw [toggle_of_mem sel id h]
    have hnot : id ∉ sel.filter (fun x => x != id) := by
      intro hmem
      have := (List.mem_filter.mp hmem).2
      simp at this
    rw [toggle_of_not_mem _ id hnot, if_pos h]
  · rw [toggle_of_not_mem sel id h]
    have hmem : id ∈ sel ++ [id] := by simp
    rw [toggle_of_mem _ id hmem, if_neg h]
    have h1 : sel.filter (fun x => x != id) = sel :=
      List.filter_eq_self.mpr (fun x hx => by
        simp
        exact fun hxid => h (hxid ▸ hx))
    simp [List.filter_append, h1]

theorem sum_map_extract (f : String → ℚ) (id : String) :
    ∀ sel : List String, sel.Nodup → id ∈ sel →
      (sel.map f).sum = ((sel.filter (fun x => x != id)).map f).sum + f id := by
  intro sel
  induction sel with
  | nil => intro _ h; cases h
  | cons a rest ih =>
      intro hnd hmem
      have hnotin : a ∉ rest := (List.nodup_cons.mp hnd).1
      have hnd' : rest.Nodup := (List.nodup_cons.mp hnd).2
      by_cases ha : a = id
      · subst ha
        have hfil : rest.filter (fun x => x != a) = rest :=
          List.filter_eq_self.mpr (fun x hx => by
            simp
            exact fun hxa => hnotin (hxa ▸ hx))
        simp [List.filter_cons, hfil, add_comm]
      · have hmem' : id ∈ rest := by
          cases List.mem_cons.mp hmem with
          | inl h => exact absurd h.symm ha
          | inr h => exact h
        have hkeep : (a != id) = true := by simpa using ha
        simp [List.filter_cons, hkeep, ih hnd' hmem', add_assoc]

/-- C4: toggling the same id twice restores `selectedUpgrades`' membership
exactly (an involution on membership), and — on selections without
duplicates, the only ones reachable — the computed total after the pair of
toggles equals the total before, for every catalog. -/
theorem toggle_pair_restores (sel : List String) (id : String) :
    (∀ x, x ∈ handleUpgradeToggle (handleUpgradeToggle sel id) id ↔
      x ∈ sel) ∧
    (sel.Nodup → ∀ r : Option RecommendationResponse,
      calculateTotal r (handleUpgradeToggle (handleUpgradeToggle sel id) id)
        = calculateTotal r sel) := by
  rw [toggle_twice_eq]
  by_cases h : id ∈ sel
  · rw [if_pos h]
    constructor
    · intro x
      simp only [List.mem_append, List.mem_filter, List.mem_singleton]
      constructor
      · rintro (⟨hx, _⟩ | rfl)
        · exact hx
        · exact h
      · intro hx
        by_cases hxid : x = id
        · exact Or.inr hxid
        · exact Or.inl ⟨hx, by simpa using hxid⟩
    · intro hnd r
      cases r with
      | none => rfl
      | some rr =>
          rw [calculateTotal_eq_sum_map, calculateTotal_eq_sum_map]
          rw [sum_map_extract (lookupPrice rr.ancillaries) id sel hnd h]
          simp
  · rw [if_neg h]
    exact ⟨fun x => Iff.rfl, fun _ _ => rfl⟩

/-- Witness for C4 on a concrete two-element selection. -/
theorem toggle_pair_restores_witness :
    ("A" ∈ handleUpgradeToggle
        (handleUpgradeToggle ["A", "B"] "A") "A" ↔ "A" ∈ ["A", "B"]) ∧
    calculateTotal (some exampleCatalog)
        (handleUpgradeToggle (handleUpgradeToggle ["A", "B"] "A") "A") =
      calculateTotal (some exampleCatalog) ["A", "B"] :=
  ⟨(toggle_pair_restores ["A", "B"] "A").1 "A",
   (toggle_pair_restores ["A", "B"] "A").2 (by decide)
     (some exampleCatalog)⟩

/-! ### Reachability invariant -/

theorem toggle_nodup (sel : List String) (id : String) (h : sel.Nodup) :
    (handleUpgradeToggle sel id).Nodup := by
  by_cases hm : id ∈ sel
  · rw [toggle_of_mem sel id hm]
    exact h.filter _
  · rw [toggle_of_not_mem sel id hm]
    simp [List.nodup_append, h, hm]

theorem pending_none_of_not_loading (s : State) (h1 : s.isLoading = false)
    (h2 : s.isLoading = s.pending.isSome) : s.pending = none := by
  cases hp : s.pending with
  | none => rfl
  | some c =>
      rw [hp] at h2
      rw [h1] at h2
      simp at h2

theorem no_pending_elim {s : State} {c : Call} {P : Prop}
    (hpn : s.pending = none) (hp : s.pending = some c) : P := by
  rw [hpn] at hp
  exact Option.noConfusion hp

theorem reachable_inv (s : State) (h : Reachable s) : Inv s := by
  induction h with
  | init =>
      refine ⟨rfl, ?_, ?_, List.nodup_nil, ⟨"", by decide⟩⟩
      · intro hp; exact Option.noConfusion hp
      · intro hp; exact Option.noConfusion hp
  | step s e hr ha ih =>
      obtain ⟨hload, hrec, hord, hnd, hup⟩ := ih
      cases e with
      | setEmail v => exact ⟨hload, hrec, hord, hnd, hup⟩
      | setFlightNumber v => exact ⟨hload, hrec, hord, hnd, ⟨v, rfl⟩⟩
      | setNeedsTransport b => exact ⟨hload, hrec, hord, hnd, hup⟩
      | setPickupAddress v => exact ⟨hload, hrec, hord, hnd, hup⟩
      | setDropoffAddress v => exact ⟨hload, hrec, hord, hnd, hup⟩
      | setPassengers v => exact ⟨hload, hrec, hord, hnd, hup⟩
      | setPickupDate v => exact ⟨hload, hrec, hord, hnd, hup⟩
      | setPickupTime v => exact ⟨hload, hrec, hord, hnd, hup⟩
      | setCarType v => exact ⟨hload, hrec, hord, hnd, hup⟩
      | pickCategory c => exact ⟨hload, hrec, hord, hnd, hup⟩
      | backToCategories => exact ⟨hload, hrec, hord, hnd, hup⟩
      | toggle id =>
          exact ⟨hload, hrec, hord, toggle_nodup _ id hnd, hup⟩
      | changeEmail =>
          have hnl : s.isLoading = false := by
            simp [available] at ha; tauto
          have hpn := pending_none_of_not_loading s hnl hload
          exact ⟨hload, fun hp => no_pending_elim hpn hp,
            fun hp => no_pending_elim hpn hp, hnd, hup⟩
      | backToChoice =>
          have hnl : s.isLoading = false := by
            simp [available] at ha; tauto
          have hpn := pending_none_of_not_loading s hnl hload
          exact ⟨hload, fun hp => no_pending_elim hpn hp,
            fun hp => no_pending_elim hpn hp, hnd, hup⟩
      | reviewOrder =>
          have hnl : s.isLoading = false := by
            simp [available] at ha; tauto
          have hpn := pending_none_of_not_loading s hnl hload
          exact ⟨hload, fun hp => no_pending_elim hpn hp,
            fun hp => no_pending_elim hpn hp, hnd, hup⟩
      | backToUpgrades =>
          have hnl : s.isLoading = false := by
            simp [available] at ha; tauto
          have hpn := pending_none_of_not_loading s hnl hload
          exact ⟨hload, fun hp => no_pending_elim hpn hp,
            fun hp => no_pending_elim hpn hp, hnd, hup⟩
      | startOver =>
          have hnl : s.isLoading = false := by
            simp [available] at ha; tauto
          have hpn := pending_none_of_not_loading s hnl hload
          exact ⟨hload, fun hp => no_pending_elim hpn hp,
            fun hp => no_pending_elim hpn hp, List.nodup_nil,
            ⟨"", rfl⟩⟩
      | next =>
          have hnl : s.isLoading = false := by
            simp [available] at ha; tauto
          have hpn := pending_none_of_not_loading s hnl hload
          show Inv (handleNext s).1
          by_cases hv : (validateStep s.currentStep s.formData).isEmpty = true
          · by_cases h2 : s.currentStep = 2
            · have hres : (handleNext s).1 =
                  { s with errors := [], currentStep := 3 } := by
                have hv' : validateStep s.currentStep s.formData = [] := by
                  simpa using hv
                rw [h2] at hv'
                rw [handleNext]; simp [hv', h2]
              rw [hres]
              exact ⟨hload, fun hp => no_pending_elim hpn hp,
                fun hp => no_pending_elim hpn hp, hnd, hup⟩
            · by_cases h3 : s.currentStep = 3
              · cases hn : s.formData.needsTransport with
                | some b =>
                    cases b with
                    | true =>
                        have hres : (handleNext s).1 =
                            { s with errors := [], currentStep := 4 } := by
                          have hv' :
                              validateStep s.currentStep s.formData = [] := by
                            simpa using hv
                          rw [h3] at hv'
                          rw [handleNext]; simp [hv', h2, h3, hn]
                        rw [hres]
                        exact ⟨hload, fun hp => no_pending_elim hpn hp,
                          fun hp => no_pending_elim hpn hp, hnd, hup⟩
                    | false =>
                        have hres : (handleNext s).1 =
                            { s with
                                errors := []
                                isLoading := true
                                pending := some Call.recommend } := by
                          have hv' :
                              validateStep s.currentStep s.formData = [] := by
                            simpa using hv
                          rw [h3] at hv'
                          rw [handleNext]
                          simp [hv', h2, h3, hn, fetchRecommendationStart]
                        rw [hres]
                        refine ⟨rfl, ?_, ?_, hnd, hup⟩
                        · intro _; exact Or.inl h3
                        · intro hp; simp at hp
                | none =>
                    have hres : (handleNext s).1 =
                        { s with
                            errors := []
                            isLoading := true
                            pending := some Call.recommend } := by
                      have hv' :
                          validateStep s.currentStep s.formData = [] := by
                        simpa using hv
                      rw [h3] at hv'
                      rw [handleNext]
                      simp [hv', h2, h3, hn, fetchRecommendationStart]
                    rw [hres]
                    refine ⟨rfl, ?_, ?_, hnd, hup⟩
                    · intro _; exact Or.inl h3
                    · intro hp; simp at hp
              · by_cases h4 : s.currentStep = 4
                · have hres : (handleNext s).1 =
                      { s with
                          errors := []
                          isLoading := true
                          pending := some Call.recommend } := by
                    have hv' :
                        validateStep s.currentStep s.formData = [] := by
                      simpa using hv
                    rw [h4] at hv'
                    rw [handleNext]
                    simp [hv', h2, h3, h4, fetchRecommendationStart]
                  rw [hres]
                  refine ⟨rfl, ?_, ?_, hnd, hup⟩
                  · intro _; exact Or.inr h4
                  · intro hp; simp at hp
                · have hres : (handleNext s).1 =
                      { s with
                          errors := []
                          currentStep := s.currentStep + 1 } := by
                    have hv' :
                        validateStep s.currentStep s.formData = [] := by
                      simpa using hv
                    rw [handleNext]; simp [hv', h2, h3, h4]
                  rw [hres]
                  exact ⟨hload, fun hp => no_pending_elim hpn hp,
                    fun hp => no_pending_elim hpn hp, hnd, hup⟩
          · rw [Bool.not_eq_true] at hv
            have hres : (handleNext s).1 =
                { s with errors := validateStep s.currentStep s.formData } := by
              rw [handleNext]; simp [hv]
            rw [hres]
            exact ⟨hload, hrec, hord, hnd, hup⟩
      | order =>
          have hnl : s.isLoading = false := by
            simp [available] at ha; tauto
          have h6 : s.currentStep = 6 := by
            simp [available] at ha; tauto
          have hpn := pending_none_of_not_loading s hnl hload
          show Inv (placeOrder s).1
          cases hrc : s.recommendation with
          | none =>
              have hres : (placeOrder s).1 = s := by
                rw [placeOrder]; simp [hrc]
              rw [hres]
              exact ⟨hload, hrec, hord, hnd, hup⟩
          | some r =>
              by_cases hsel : s.formData.selectedUpgrades.isEmpty = true
              · have hres : (placeOrder s).1 = s := by
                  rw [placeOrder]; simp [hrc, hsel]
                rw [hres]
                exact ⟨hload, hrec, hord, hnd, hup⟩
              · rw [Bool.not_eq_true] at hsel
                have hres : (placeOrder s).1 =
                    { s with
                        isLoading := true
                        pending := some Call.order } := by
                  rw [placeOrder]; simp [hrc, hsel]
                rw [hres]
                refine ⟨rfl, ?_, ?_, hnd, hup⟩
                · intro hp; simp at hp
                · intro _; exact h6
      | fetchResolved r =>
          cases r with
          | some data =>
              refine ⟨rfl, ?_, ?_, hnd, hup⟩
              · intro hp; exact Option.noConfusion hp
              · intro hp; exact Option.noConfusion hp
          | none =>
              refine ⟨rfl, ?_, ?_, hnd, hup⟩
              · intro hp; exact Option.noConfusion hp
              · intro hp; exact Option.noConfusion hp
      | orderResolved ok =>
          cases ok with
          | true =>
              refine ⟨rfl, ?_, ?_, hnd, hup⟩
              · intro hp; exact Option.noConfusion hp
              · intro hp; exact Option.noConfusion hp
          | false =>
              refine ⟨rfl, ?_, ?_, hnd, hup⟩
              · intro hp; exact Option.noConfusion hp
              · intro hp; exact Option.noConfusion hp

/-! ### Shapes of the two effectful handlers -/

theorem handleNext_shape (s : State) :
    ((handleNext s).2 = [] ∧ (handleNext s).1.isLoading = s.isLoading ∧
      (handleNext s).1.pending = s.pending) ∨
    ((handleNext s).2 =
        [Effect.recommendRequest s.formData.email s.formData.flightNumber] ∧
      (handleNext s).1.isLoading = true ∧
      (handleNext s).1.pending = some Call.recommend ∧
      (handleNext s).1.currentStep = s.currentStep) := by
  by_cases hv : (validateStep s.currentStep s.formData).isEmpty = true
  · have hv' : validateStep s.currentStep s.formData = [] := by simpa using hv
    by_cases h2 : s.currentStep = 2
    · left
      rw [handleNext]
      rw [h2] at hv' ⊢
      simp [hv']
    · by_cases h3 : s.currentStep = 3
      · cases hn : s.formData.needsTransport with
        | some b =>
            cases b with
            | true =>
                left
                rw [handleNext]
                rw [h3] at hv' ⊢
                simp [hv', hn]
            | false =>
                right
                rw [handleNext]
                rw [h3] at hv' ⊢
                simp [hv', hn, fetchRecommendationStart]
        | none =>
            right
            rw [handleNext]
            rw [h3] at hv' ⊢
            simp [hv', hn, fetchRecommendationStart]
      · by_cases h4 : s.currentStep = 4
        · right
          rw [handleNext]
          rw [h4] at hv' ⊢
          simp [hv', fetchRecommendationStart]
        · left
          rw [handleNext]
          simp [hv', h2, h3, h4]
  · have hv' : ¬(validateStep s.currentStep s.formData = []) := by
      simpa using hv
    left
    rw [handleNext]
    simp [hv']

theorem handleNext_step_succ_or_same (s : State) :
    (handleNext s).1.currentStep = s.currentStep ∨
    (handleNext s).1.currentStep = s.currentStep + 1 := by
  by_cases hv : (validateStep s.currentStep s.formData).isEmpty = true
  · have hv' : validateStep s.currentStep s.formData = [] := by simpa using hv
    by_cases h2 : s.currentStep = 2
    · right
      rw [handleNext]
      rw [h2] at hv' ⊢
      simp [hv']
    · by_cases h3 : s.currentStep = 3
      · cases hn : s.formData.needsTransport with
        | some b =>
            cases b with
            | true =>
                right
                rw [handleNext]
                rw [h3] at hv' ⊢
                simp [hv', hn]
            | false =>
                left
                rw [handleNext]
                rw [h3] at hv' ⊢
                simp [hv', hn, fetchRecommendationStart]
        | none =>
            left
            rw [handleNext]
            rw [h3] at hv' ⊢
            simp [hv', hn, fetchRecommendationStart]
      · by_cases h4 : s.currentStep = 4
        · left
          rw [handleNext]
          rw [h4] at hv' ⊢
          simp [hv', fetchRecommendationStart]
        · right
          rw [handleNext]
          simp [hv', h2, h3, h4]
  · have hv' : ¬(validateStep s.currentStep s.formData = []) := by
      simpa using hv
    left
    rw [handleNext]
    simp [hv']

theorem placeOrder_shape (s : State) :
    ((placeOrder s).1 = s ∧
      (placeOrder s).2 = [Effect.toast "No Selection"]) ∨
    ((placeOrder s).1.isLoading = true ∧
      (placeOrder s).1.pending = some Call.order ∧
      (placeOrder s).1.currentStep = s.currentStep ∧
      ∃ rid, (placeOrder s).2 =
        [Effect.orderRequest rid s.formData.selectedUpgrades
          s.formData.email]) := by
  cases hrc : s.recommendation with
  | none =>
      left
      rw [placeOrder]
      simp [hrc]
  | some r =>
      by_cases hsel : s.formData.selectedUpgrades.isEmpty = true
      · left
        rw [placeOrder]
        simp [hrc, hsel]
      · right
        rw [Bool.not_eq_true] at hsel
        rw [placeOrder]
        simp [hrc, hsel]

/-- C7 counterexample: the Change-email link is a user-triggered operation,
available in the reachable Flight-step state, that sets `currentStep` from
2 (Flight) to 1 (Email) — an edge the spec §4.2 enumeration does not
contain, refuting the claim as stated. -/
theorem step_transitions_spec_edges_counterexample :
    Reachable demoFlightState ∧
    demoFlightState.currentStep = 2 ∧
    Event.changeEmail.isUser = true ∧
    available demoFlightState Event.changeEmail = true ∧
    (applyEvent demoFlightState Event.changeEmail).1.currentStep = 1 ∧
    (2, 1) ∉ specEdges := by
  refine ⟨?_, by decide, rfl, by decide, by decide, by decide⟩
  exact Reachable.step _ _
    (Reachable.step _ _ Reachable.init (by decide)) (by decide)

/-- C7 (amended): in every reachable state, every available event either
leaves `currentStep` unchanged or moves it along an edge of the spec §4.2
set extended with the two back edges present in the code (Flight→Email via
Change email, TransferDetails→TransferChoice via Back). -/
theorem step_transitions_within_extended_edges (s : State) (e : Event)
    (h : Reachable s) (ha : available s e = true) :
    (applyEvent s e).1.currentStep = s.currentStep ∨
    (s.currentStep, (applyEvent s e).1.currentStep) ∈ extendedEdges := by
  obtain ⟨hload, hrec, hord, -, -⟩ := reachable_inv s h
  cases e with
  | setEmail v => exact Or.inl rfl
  | setFlightNumber v => exact Or.inl rfl
  | setNeedsTransport b => exact Or.inl rfl
  | setPickupAddress v => exact Or.inl rfl
  | setDropoffAddress v => exact Or.inl rfl
  | setPassengers v => exact Or.inl rfl
  | setPickupDate v => exact Or.inl rfl
  | setPickupTime v => exact Or.inl rfl
  | setCarType v => exact Or.inl rfl
  | pickCategory c => exact Or.inl rfl
  | backToCategories => exact Or.inl rfl
  | toggle id => exact Or.inl rfl
  | changeEmail =>
      have h2 : s.currentStep = 2 := by simp [available] at ha; tauto
      right
      show (s.currentStep, (1 : Nat)) ∈ extendedEdges
      rw [h2]
      decide
  | backToChoice =>
      have h4 : s.currentStep = 4 := by simp [available] at ha; tauto
      right
      show (s.currentStep, (3 : Nat)) ∈ extendedEdges
      rw [h4]
      decide
  | reviewOrder =>
      have h5 : s.currentStep = 5 := by simp [available] at ha; tauto
      right
      show (s.currentStep, (6 : Nat)) ∈ extendedEdges
      rw [h5]
      decide
  | backToUpgrades =>
      have h6 : s.currentStep = 6 := by simp [available] at ha; tauto
      right
      show (s.currentStep, (5 : Nat)) ∈ extendedEdges
      rw [h6]
      decide
  | startOver =>
      have h7 : s.currentStep = 7 := by simp [available] at ha; tauto
      right
      show (s.currentStep, (1 : Nat)) ∈ extendedEdges
      rw [h7]
      decide
  | next =>
      rcases handleNext_step_succ_or_same s with hs | hs
      · exact Or.inl hs
      · have hsteps : s.currentStep = 1 ∨ s.currentStep = 2 ∨
            s.currentStep = 3 ∨ s.currentStep = 4 := by
          simp [available] at ha; tauto
        right
        show (s.currentStep, (handleNext s).1.currentStep) ∈ extendedEdges
        rw [hs]
        rcases hsteps with h1 | h1 | h1 | h1 <;> rw [h1] <;> decide
  | order =>
      left
      rcases placeOrder_shape s with ⟨heq, -⟩ | ⟨-, -, hstep, -⟩
      · show (placeOrder s).1.currentStep = s.currentStep
        rw [heq]
      · exact hstep
  | fetchResolved r =>
      cases r with
      | none => exact Or.inl rfl
      | some data =>
          have hp : s.pending = some Call.recommend := by
            simp [available] at ha; exact ha
          right
          show (s.currentStep, (5 : Nat)) ∈ extendedEdges
          rcases hrec hp with h1 | h1 <;> rw [h1] <;> decide
  | orderResolved ok =>
      cases ok with
      | false => exact Or.inl rfl
      | true =>
          have hp : s.pending = some Call.order := by
            simp [available] at ha; exact ha
          right
          show (s.currentStep, (7 : Nat)) ∈ extendedEdges
          rw [hord hp]
          decide

/-- Witness for the amended C7 at the initial state with an email
keystroke, which leaves the step unchanged. -/
theorem step_transitions_within_extended_edges_witness :
    (applyEvent initialState (Event.setEmail "x")).1.currentStep =
      initialState.currentStep ∨
    (initialState.currentStep,
      (applyEvent initialState (Event.setEmail "x")).1.currentStep) ∈
      extendedEdges :=
  step_transitions_within_extended_edges initialState (Event.setEmail "x")
    Reachable.init (by decide)

/-- C8: in every reachable state, `isLoading` holds exactly while a
boundary call is outstanding; while it holds no user-initiated event is
available (so advances are ignored and no second call can be issued); and
any event that does emit a boundary request fires from a state with no
outstanding call and leaves the state busy with that call outstanding. -/
theorem busy_blocks_user_actions (s : State) (h : Reachable s) :
    s.isLoading = s.pending.isSome ∧
    (s.isLoading = true →
      ∀ e : Event, e.isUser = true → available s e = false) ∧
    (∀ e : Event, available s e = true →
      ∀ eff ∈ (applyEvent s e).2, eff.isBoundaryRequest = true →
        s.pending = none ∧ (applyEvent s e).1.isLoading = true ∧
          (applyEvent s e).1.pending.isSome = true) := by
  obtain ⟨hload, hrec, hord, -, -⟩ := reachable_inv s h
  refine ⟨hload, ?_, ?_⟩
  · intro hl e hu
    cases e <;> simp_all [available, Event.isUser]
  · intro e hae eff heff hbr
    cases e with
    | next =>
        have hnl : s.isLoading = false := by
          simp [available] at hae; tauto
        have hpn := pending_none_of_not_loading s hnl hload
        have heff' : eff ∈ (handleNext s).2 := heff
        show s.pending = none ∧ (handleNext s).1.isLoading = true ∧
          (handleNext s).1.pending.isSome = true
        rcases handleNext_shape s with ⟨he, -, -⟩ | ⟨-, hl2, hp2, -⟩
        · rw [he] at heff'
          exact absurd heff' (List.not_mem_nil eff)
        · exact ⟨hpn, hl2, by rw [hp2]; rfl⟩
    | order =>
        have hnl : s.isLoading = false := by
          simp [available] at hae; tauto
        have hpn := pending_none_of_not_loading s hnl hload
        have heff' : eff ∈ (placeOrder s).2 := heff
        show s.pending = none ∧ (placeOrder s).1.isLoading = true ∧
          (placeOrder s).1.pending.isSome = true
        rcases placeOrder_shape s with ⟨-, he⟩ | ⟨hl2, hp2, -, -⟩
        · rw [he] at heff'
          rw [List.mem_singleton.mp heff'] at hbr
          exact absurd hbr (by simp [Effect.isBoundaryRequest])
        · exact ⟨hpn, hl2, by rw [hp2]; rfl⟩
    | setEmail v => simp [applyEvent] at heff
    | setFlightNumber v => simp [applyEvent] at heff
    | setNeedsTransport b => simp [applyEvent] at heff
    | setPickupAddress v => simp [applyEvent] at heff
    | setDropoffAddress v => simp [applyEvent] at heff
    | setPassengers v => simp [applyEvent] at heff
    | setPickupDate v => simp [applyEvent] at heff
    | setPickupTime v => simp [applyEvent] at heff
    | setCarType v => simp [applyEvent] at heff
    | changeEmail => simp [applyEvent] at heff
    | backToChoice => simp [applyEvent] at heff
    | pickCategory c => simp [applyEvent] at heff
    | backToCategories => simp [applyEvent] at heff
    | reviewOrder => simp [applyEvent] at heff
    | backToUpgrades => simp [applyEvent] at heff
    | toggle id => simp [applyEvent] at heff
    | startOver => simp [applyEvent] at heff
    | fetchResolved r =>
        exfalso
        cases r with
        | some data =>
            simp [applyEvent, fetchRecommendationResolve] at heff
            rw [heff] at hbr
            simp [Effect.isBoundaryRequest] at hbr
        | none =>
            simp [applyEvent, fetchRecommendationResolve] at heff
            rw [heff] at hbr
            simp [Effect.isBoundaryRequest] at hbr
    | orderResolved ok =>
        exfalso
        cases ok with
        | true =>
            simp [applyEvent, placeOrderResolve] at heff
            rw [heff] at hbr
            simp [Effect.isBoundaryRequest] at hbr
        | false =>
            simp [applyEvent, placeOrderResolve] at heff
            rw [heff] at hbr
            simp [Effect.isBoundaryRequest] at hbr

/-- Witness for C8 at the (reachable) initial state. -/
theorem busy_blocks_user_actions_witness :
    initialState.isLoading = initialState.pending.isSome ∧
    (initialState.isLoading = true →
      ∀ e : Event, e.isUser = true → available initialState e = false) ∧
    (∀ e : Event, available initialState e = true →
      ∀ eff ∈ (applyEvent initialState e).2, eff.isBoundaryRequest = true →
        initialState.pending = none ∧
          (applyEvent initialState e).1.isLoading = true ∧
          (applyEvent initialState e).1.pending.isSome = true) :=
  busy_blocks_user_actions initialState Reachable.init

/-- C9: in every reachable state `selectedUpgrades` holds no duplicate id —
its length is the cardinality of the selected-id set — because the toggle,
the only mutator besides the full reset, removes every occurrence of a
present id and appends one occurrence of an absent id. -/
theorem selected_upgrades_no_duplicates (s : State) (h : Reachable s) :
    s.formData.selectedUpgrades.Nodup ∧
    s.formData.selectedUpgrades.toFinset.card =
      s.formData.selectedUpgrades.length ∧
    (∀ (sel : List String) (id : String), id ∈ sel →
      handleUpgradeToggle sel id = sel.filter (fun x => x != id)) ∧
    (∀ (sel : List String) (id : String), id ∉ sel →
      handleUpgradeToggle sel id = sel ++ [id]) := by
  obtain ⟨-, -, -, hnd, -⟩ := reachable_inv s h
  exact ⟨hnd, List.toFinset_card_of_nodup hnd, toggle_of_mem,
    toggle_of_not_mem⟩

/-- Witness for C9 at the (reachable) initial state. -/
theorem selected_upgrades_no_duplicates_witness :
    initialState.formData.selectedUpgrades.Nodup ∧
    initialState.formData.selectedUpgrades.toFinset.card =
      initialState.formData.selectedUpgrades.length ∧
    (∀ (sel : List String) (id : String), id ∈ sel →
      handleUpgradeToggle sel id = sel.filter (fun x => x != id)) ∧
    (∀ (sel : List String) (id : String), id ∉ sel →
      handleUpgradeToggle sel id = sel ++ [id]) :=
  selected_upgrades_no_duplicates initialState Reachable.init

/-- C10: the flight-number input stores exactly the uppercase image of the
typed string; hence in every reachable state the stored `flightNumber` is
an uppercase image, and both the flight-step validation and the
recommendation request body read that stored value. -/
theorem flight_number_always_uppercase (s : State) (h : Reachable s) :
    (∀ v, (applyEvent s (Event.setFlightNumber v)).1.formData.flightNumber =
      toUpperCase v) ∧
    (∃ raw, s.formData.flightNumber = toUpperCase raw) ∧
    (fetchRecommendationStart s).2 =
      [Effect.recommendRequest s.formData.email s.formData.flightNumber] ∧
    validateStep 2 s.formData =
      (if s.formData.flightNumber.length ≥ 3 then [] else
        [("flightNumber",
          "Flight number must be at least 3 characters")]) := by
  obtain ⟨-, -, -, -, hup⟩ := reachable_inv s h
  exact ⟨fun v => rfl, hup, rfl, rfl⟩

/-- Witness for C10: typing "ba075" at the (reachable) initial state
stores "BA075". -/
theorem flight_number_always_uppercase_witness :
    (applyEvent initialState
        (Event.setFlightNumber "ba075")).1.formData.flightNumber =
      toUpperCase "ba075" ∧
    (∃ raw, initialState.formData.flightNumber = toUpperCase raw) ∧
    (fetchRecommendationStart initialState).2 =
      [Effect.recommendRequest initialState.formData.email
        initialState.formData.flightNumber] ∧
    validateStep 2 initialState.formData =
      (if initialState.formData.flightNumber.length ≥ 3 then [] else
        [("flightNumber",
          "Flight number must be at least 3 characters")]) :=
  ⟨(flight_number_always_uppercase initialState Reachable.init).1 "ba075",
   (flight_number_always_uppercase initialState Reachable.init).2⟩

end Arcube
